import Mathlib

/-!
Verification development for the secure UDP transport repository.

The repository contains two sibling implementations of the same design:
* `secure_udp` — AES-256-GCM via libsodium (`src/secure_udp/crypto/aes_gcm.cpp`),
  with a ledger-based sender (`SecureUdpSender` with `unackedPackets_`, a mutex,
  a condition variable and a background retransmit thread) and a threaded
  receiver (`SecureUdpReceiver::receiveThreadFunc`).
* `secure_udp_example` — AES-256-GCM via OpenSSL EVP
  (`src/secure_udp_example/crypto/aes_gcm.cpp`), with a simple fire-and-forget
  sender (`src/secure_udp_example/net/sender.cpp`).

Machine integers are embedded as `Nat` with explicit reductions modulo `2 ^ 32`
(`uint32_t`) where overflow matters; byte buffers are `List Nat` with each
element a byte value.
-/

/-- libsodium constant: AES-256-GCM key size in bytes (32). -/
def crypto_aead_aes256gcm_KEYBYTES : Nat := 32

/-- libsodium constant: AES-256-GCM nonce size in bytes (12). -/
def crypto_aead_aes256gcm_NPUBBYTES : Nat := 12

/-- libsodium constant: AES-256-GCM authentication tag size in bytes (16). -/
def crypto_aead_aes256gcm_ABYTES : Nat := 16

/-- Modelled from the spec: a deterministic byte-string hash standing in for the
internals of the AES-256-GCM primitive, which lives in the external crypto
libraries (libsodium / OpenSSL) and is not part of the repository. Only its
interface shape matters to the claims: the repository's wrappers feed it a key,
a nonce, the plaintext or ciphertext, and an (always empty) associated-data
buffer. -/
def bytesHash (seed : Nat) (l : List Nat) : Nat :=
  l.foldl (fun a b => (a * 131 + b + 7) % 65536) seed

/-- Modelled from the spec: byte `i` of the AES-256-GCM counter-mode keystream
derived from the key and the nonce. -/
def keystreamByte (key nonce : List Nat) (i : Nat) : Nat :=
  (bytesHash (bytesHash 29 key) nonce * 67 + i * 13 + 5) % 256

/-- Modelled from the spec: counter-mode byte stream transformation (xor of the
data with the keystream starting at position `i`). Applying it twice with the
same key, nonce and position restores the data. -/
def ctrBytes (key nonce : List Nat) : Nat → List Nat → List Nat
  | _, [] => []
  | i, b :: rest => Nat.xor b (keystreamByte key nonce i) :: ctrBytes key nonce (i + 1) rest

/-- Modelled from the spec: the 16-byte AES-256-GCM authentication tag, a
deterministic function of key, nonce, associated data and ciphertext. -/
def gcmTag (key nonce aad ciphertext : List Nat) : List Nat :=
  let h := bytesHash (bytesHash (bytesHash (bytesHash 17 key) nonce) aad) ciphertext
  (List.range 16).map (fun i => (h * (i + 1) + i * 31) % 256)

/-- Modelled from the spec: the AES-256-GCM encryption primitive of the external
library. Returns the ciphertext and the 16-byte tag. -/
def aeadEncrypt (key nonce aad plaintext : List Nat) : List Nat × List Nat :=
  let c := ctrBytes key nonce 0 plaintext
  (c, gcmTag key nonce aad c)

/-- Modelled from the spec: the AES-256-GCM decryption primitive of the external
library. Verifies the tag against the recomputed one and, only on success,
releases the decrypted plaintext (atomic rejection on failure). -/
def aeadDecrypt (key nonce aad ciphertext tag : List Nat) : Option (List Nat) :=
  if tag = gcmTag key nonce aad ciphertext then some (ctrBytes key nonce 0 ciphertext)
  else none

namespace SecureUdp

/-- Embedding of `aes_gcm_encrypt` in `src/secure_udp/crypto/aes_gcm.cpp`
(libsodium backend). The source checks `key.size() != crypto_aead_aes256gcm_KEYBYTES`
and then `nonce.size() != crypto_aead_aes256gcm_KEYBYTES` — the nonce length is
compared against the KEY size constant (32), not against
`crypto_aead_aes256gcm_NPUBBYTES` (12). The AAD pointer passed to
`crypto_aead_aes256gcm_encrypt` is `nullptr` with length 0. On success the
combined output is split into ciphertext and a 16-byte tag. -/
def aes_gcm_encrypt (key nonce plaintext : List Nat) : Option (List Nat × List Nat) :=
  if key.length ≠ crypto_aead_aes256gcm_KEYBYTES then none
  else if nonce.length ≠ crypto_aead_aes256gcm_KEYBYTES then none
  else some (aeadEncrypt key nonce [] plaintext)

/-- Embedding of `aes_gcm_decrypt` in `src/secure_udp/crypto/aes_gcm.cpp`
(libsodium backend). Same length checks as encryption (the nonce again compared
against the 32-byte KEY size constant); the ciphertext and tag are concatenated
into `combined` and handed to `crypto_aead_aes256gcm_decrypt`, which verifies
the trailing `crypto_aead_aes256gcm_ABYTES` bytes as the tag, with empty AAD. -/
def aes_gcm_decrypt (key nonce ciphertext tag : List Nat) : Option (List Nat) :=
  if key.length ≠ crypto_aead_aes256gcm_KEYBYTES then none
  else if nonce.length ≠ crypto_aead_aes256gcm_KEYBYTES then none
  else
    let combined := ciphertext ++ tag
    if combined.length < crypto_aead_aes256gcm_ABYTES then none
    else
      aeadDecrypt key nonce []
        (combined.take (combined.length - crypto_aead_aes256gcm_ABYTES))
        (combined.drop (combined.length - crypto_aead_aes256gcm_ABYTES))

end SecureUdp

namespace SecureUdpExample

/-- Embedding of `aes_gcm_encrypt` in `src/secure_udp_example/crypto/aes_gcm.cpp`
(OpenSSL EVP backend, `src/unnamed/part_001`). The function resizes the nonce to
12 bytes and fills it via `RAND_bytes`; the random draw is made explicit as the
`randomBytes` parameter. No key- or nonce-length checks are performed, no AAD is
supplied to the cipher, and the EVP calls are modelled as succeeding. Returns
the generated nonce, the ciphertext and the 16-byte tag. -/
def aes_gcm_encrypt (key plaintext randomBytes : List Nat) :
    List Nat × List Nat × List Nat :=
  let nonce := (randomBytes ++ List.replicate 12 0).take 12
  let r := aeadEncrypt key nonce [] plaintext
  (nonce, r.1, r.2)

/-- Embedding of `aes_gcm_decrypt` in `src/secure_udp_example/crypto/aes_gcm.cpp`
(OpenSSL EVP backend, `src/unnamed/part_001`). No length checks; the expected
tag is installed with `EVP_CTRL_GCM_SET_TAG` and `EVP_DecryptFinal_ex` fails iff
the tag does not verify; no AAD is supplied. -/
def aes_gcm_decrypt (key nonce ciphertext tag : List Nat) : Option (List Nat) :=
  aeadDecrypt key nonce [] ciphertext tag

end SecureUdpExample

/-- Little-endian serialization of `w` bytes of `v`, as in the sender's framing
loops `packet.push_back((v >> (i*8)) & 0xff)` (`src/unnamed/part_004`). -/
def encodeLE : Nat → Nat → List Nat
  | 0, _ => []
  | w + 1, v => (v &&& 255) :: encodeLE w (v >>> 8)

/-- Little-endian deserialization, as in the receiver's loops
`value |= buffer[offset++] << (i*8)` (`src/unnamed/part_003`). -/
def decodeLE : List Nat → Nat
  | [] => 0
  | b :: rest => b ||| (decodeLE rest <<< 8)

/-- Wire frame construction from `SecureUdpSender::send`
(`src/unnamed/part_004` lines 83–97):
`[SEQ(4B LE)][TIMESTAMP(8B LE)][NONCE][CIPHERTEXT][TAG]`. -/
def encodePacket (seq timestamp : Nat) (nonce ciphertext tag : List Nat) : List Nat :=
  encodeLE 4 seq ++ encodeLE 8 timestamp ++ nonce ++ ciphertext ++ tag

/-- The five fields parsed out of a received datagram. -/
structure WireFields where
  seq : Nat
  timestamp : Nat
  nonce : List Nat
  ciphertext : List Nat
  tag : List Nat
  deriving DecidableEq, Repr

/-- Wire frame parsing from `SecureUdpReceiver::receiveThreadFunc`
(`src/unnamed/part_003` lines 89–101): sequence and timestamp are little-endian
decoded; the nonce is the 12 bytes at offset 12; the ciphertext length is
derived as `len - 24 - 16`; the tag is the final 16 bytes. -/
def parsePacket (buffer : List Nat) : WireFields :=
  { seq := decodeLE (buffer.take 4)
    timestamp := decodeLE ((buffer.drop 4).take 8)
    nonce := (buffer.drop 12).take 12
    ciphertext := (buffer.drop 24).take (buffer.length - 24 - 16)
    tag := ((buffer.drop 24).drop (buffer.length - 24 - 16)).take 16 }

/-- State of a `SecureUdpSender` instance (`src/unnamed/part_003` lines 10–31):
the atomic `seq_` counter (a `uint32_t`, kept below `2 ^ 32`), the
`unackedPackets_` map from sequence number to serialized packet bytes, and the
`running_` flag. The socket and remote address are external I/O plumbing and
are not part of the state. -/
structure SenderState where
  seq : Nat
  unackedPackets : List (Nat × List Nat)
  running : Bool
  deriving DecidableEq, Repr

/-- Constructor state of `SecureUdpSender` (`src/unnamed/part_004` lines 44–58):
`seq_(0), running_(true)`, empty ledger. -/
def initialSenderState : SenderState :=
  { seq := 0, unackedPackets := [], running := true }

/-- Assignment `unackedPackets_[k] = v` on `std::unordered_map`: replace the
value if the key is present, insert a new entry otherwise. -/
def ledgerInsert (m : List (Nat × List Nat)) (k : Nat) (v : List Nat) :
    List (Nat × List Nat) :=
  if m.any (fun p => p.1 == k) then m.map (fun p => if p.1 == k then (k, v) else p)
  else m ++ [(k, v)]

namespace SecureUdpSender

/-- Embedding of `SecureUdpSender::send` (`src/unnamed/part_004` lines 64–105).
In source order: `seq_.fetch_add(1)` assigns `currentSeq` and advances the
counter (wrapping at `2 ^ 32`, since `seq_` is `uint32_t`); a fresh random
12-byte nonce is drawn by `generateNonce()` (made explicit as the `nonce`
parameter); `aes_gcm_encrypt` is invoked with the shared key; on failure the
function logs and returns `false`; on success the packet is framed
(`encodePacket` with the current timestamp, passed explicitly) and stored into
`unackedPackets_` under the mutex, the condition variable is notified, and
`true` is returned. No immediate network write is performed. -/
def send (sharedKey : List Nat) (st : SenderState) (data nonce : List Nat)
    (timestamp : Nat) : Bool × SenderState :=
  let currentSeq := st.seq
  let st1 : SenderState := { st with seq := (st.seq + 1) % 2 ^ 32 }
  match SecureUdp.aes_gcm_encrypt sharedKey nonce data with
  | none => (false, st1)
  | some ct =>
      let packet := encodePacket currentSeq timestamp nonce ct.1 ct.2
      (true, { st1 with unackedPackets := ledgerInsert st1.unackedPackets currentSeq packet })

/-- Embedding of `SecureUdpSender::stop` (`src/unnamed/part_004` lines 127–134):
if running, clears the flag, wakes and joins the thread and closes the socket.
The `unackedPackets_` map is not touched; it is destroyed only with the object. -/
def stop (st : SenderState) : SenderState :=
  if st.running then { st with running := false } else st

/-- One wakeup of the retransmit loop `SecureUdpSender::sendThreadFunc`
(`src/unnamed/part_004` lines 107–125): if the running flag has been cleared the
loop breaks and sends nothing; otherwise every entry currently in
`unackedPackets_` is sent via `sendto`, verbatim. The ledger itself is not
modified by the loop. -/
def retransmitSends (st : SenderState) : List (Nat × List Nat) :=
  if st.running then st.unackedPackets else []

end SecureUdpSender

/-- Operations that can act on a live `SecureUdpSender`: a `send()` call from
the API caller, one iteration of the background retransmit loop, or `stop()`. -/
inductive SenderOp where
  | sendMsg (data nonce : List Nat) (timestamp : Nat)
  | retransmitIter
  | stopCall
  deriving Repr

/-- State transition of the sender under one operation. The retransmit loop
only reads the ledger (its network writes do not change sender state). -/
def senderStep (sharedKey : List Nat) (st : SenderState) : SenderOp → SenderState
  | SenderOp.sendMsg d n t => (SecureUdpSender.send sharedKey st d n t).2
  | SenderOp.retransmitIter => st
  | SenderOp.stopCall => SecureUdpSender.stop st

/-- Abstract events of one `sendThreadFunc` loop iteration, in source order. -/
inductive SendEvent where
  | lockAcquire
  | cvWait
  | sendTo (seqNum : Nat)
  | lockRelease
  | sleepInterval
  deriving DecidableEq, Repr

/-- Event trace of one iteration of `SecureUdpSender::sendThreadFunc`
(`src/unnamed/part_004` lines 107–125), in source order: the `unique_lock`
acquires the mutex; if the ledger is empty the loop waits on the condition
variable; if the running flag is now false the loop breaks (the lock is
released by the `unique_lock` destructor); otherwise the `for` loop calls
`sendto` for every ledger entry, then `lock.unlock()` releases the mutex and
the thread sleeps for the 100 ms interval. -/
def sendThreadIterEvents (st : SenderState) : List SendEvent :=
  [SendEvent.lockAcquire] ++
    (if st.unackedPackets.isEmpty then [SendEvent.cvWait] else []) ++
    (if st.running then
      st.unackedPackets.map (fun p => SendEvent.sendTo p.1) ++
        [SendEvent.lockRelease, SendEvent.sleepInterval]
    else [SendEvent.lockRelease])

/-- Sequence numbers of the `sendto` calls performed while the mutex is held,
scanning an event list with the given initial lock state. -/
def sendsUnderLock : Bool → List SendEvent → List Nat
  | _, [] => []
  | _, SendEvent.lockAcquire :: rest => sendsUnderLock true rest
  | _, SendEvent.lockRelease :: rest => sendsUnderLock false rest
  | held, SendEvent.sendTo s :: rest =>
      (if held then [s] else []) ++ sendsUnderLock held rest
  | held, SendEvent.cvWait :: rest => sendsUnderLock held rest
  | held, SendEvent.sleepInterval :: rest => sendsUnderLock held rest

/-- Sender state after `n` calls to `send()` starting from the constructor
state, where `inputs k` supplies the data, the random nonce draw and the
timestamp of the `k`-th call. -/
def sendTrace (sharedKey : List Nat) (inputs : Nat → List Nat × List Nat × Nat) :
    Nat → SenderState
  | 0 => initialSenderState
  | n + 1 =>
      let st := sendTrace sharedKey inputs n
      (SecureUdpSender.send sharedKey st (inputs n).1 (inputs n).2.1 (inputs n).2.2).2

/-- Sequence number assigned to the `n`-th `send()` call (`seq_.fetch_add(1)`
returns the prior counter value). -/
def assignedSeq (sharedKey : List Nat) (inputs : Nat → List Nat × List Nat × Nat)
    (n : Nat) : Nat :=
  (sendTrace sharedKey inputs n).seq

namespace SecureUdpReceiver

/-- Embedding of the per-datagram body of `SecureUdpReceiver::receiveThreadFunc`
(`src/unnamed/part_003` lines 81–113): datagrams shorter than
`4 + 8 + 12 + 16` bytes are silently dropped; otherwise the frame is parsed
(the decoded sequence and timestamp are used only in the failure log message)
and `aes_gcm_decrypt` is invoked with the shared key, the nonce, the ciphertext
and the tag. `none` means the datagram is dropped without invoking the
callback; `some plaintext` means the callback is invoked with `plaintext`. -/
def processDatagram (sharedKey buffer : List Nat) : Option (List Nat) :=
  if buffer.length < 4 + 8 + 12 + 16 then none
  else
    let f := parsePacket buffer
    SecureUdp.aes_gcm_decrypt sharedKey f.nonce f.ciphertext f.tag

/-- Plaintexts delivered to the `onMessage` callback for a list of received
datagrams, in order. The receive loop holds no per-packet state between
iterations, so this is a plain `filterMap`. -/
def deliveries (sharedKey : List Nat) (datagrams : List (List Nat)) :
    List (List Nat) :=
  datagrams.filterMap (processDatagram sharedKey)

end SecureUdpReceiver

/-! ### Helper lemmas -/

lemma encodeLE_length (w : Nat) : ∀ v : Nat, (encodeLE w v).length = w := by
  induction w with
  | zero => intro v; rfl
  | succ m ih => intro v; simp [encodeLE, ih]

lemma encodePacket_drop_twelve (s t : Nat) (n c g : List Nat) :
    (encodePacket s t n c g).drop 12 = n ++ (c ++ g) := by
  have h : encodePacket s t n c g = (encodeLE 4 s ++ encodeLE 8 t) ++ (n ++ (c ++ g)) := by
    simp [encodePacket, List.append_assoc]
  rw [h, List.drop_left' (by simp [encodeLE_length])]

lemma encodePacket_drop_twentyfour (s t : Nat) (n c g : List Nat) :
    (encodePacket s t n c g).drop 24 = (n ++ (c ++ g)).drop 12 := by
  have h := congrArg (List.drop 12) (encodePacket_drop_twelve s t n c g)
  rw [List.drop_drop] at h
  simpa using h

lemma encodePacket_length (s t : Nat) (n c g : List Nat) :
    (encodePacket s t n c g).length = 12 + (n ++ (c ++ g)).length := by
  simp [encodePacket, encodeLE_length]
  omega

lemma send_seq (sharedKey : List Nat) (st : SenderState) (d n : List Nat) (t : Nat) :
    ((SecureUdpSender.send sharedKey st d n t).2).seq = (st.seq + 1) % 2 ^ 32 := by
  unfold SecureUdpSender.send
  cases SecureUdp.aes_gcm_encrypt sharedKey n d <;> rfl

lemma sendTrace_seq (sharedKey : List Nat) (inputs : Nat → List Nat × List Nat × Nat)
    (n : Nat) : (sendTrace sharedKey inputs n).seq = n % 2 ^ 32 := by
  induction n with
  | zero => rfl
  | succ m ih =>
      show ((SecureUdpSender.send sharedKey (sendTrace sharedKey inputs m) _ _ _).2).seq = _
      rw [send_seq, ih]
      conv_rhs => rw [Nat.add_mod]
      norm_num

lemma ledgerInsert_keys_mono (m : List (Nat × List Nat)) (k : Nat) (v : List Nat)
    (x : Nat) (hx : x ∈ m.map Prod.fst) : x ∈ (ledgerInsert m k v).map Prod.fst := by
  unfold ledgerInsert
  split
  · rcases List.mem_map.1 hx with ⟨p, hp, hpx⟩
    refine List.mem_map.2 ⟨if p.1 == k then (k, v) else p, List.mem_map_of_mem _ hp, ?_⟩
    subst hpx
    by_cases h : p.1 = k
    · simp [h]
    · simp [h]
  · simp only [List.map_append, List.mem_append]
    exact Or.inl hx

lemma sendsUnderLock_sendTo_append (l : List (Nat × List Nat)) (rest : List SendEvent) :
    sendsUnderLock true (l.map (fun p => SendEvent.sendTo p.1) ++ rest) =
      l.map Prod.fst ++ sendsUnderLock true rest := by
  induction l with
  | nil => rfl
  | cons p l ih => simp [sendsUnderLock, ih]

/-! ### Claim theorems -/

/-- C5: for a single Sender instance, consecutive `send()` calls are assigned
strictly increasing sequence numbers modulo `2 ^ 32`, with no repeated number
before the counter wraps at `2 ^ 32`: the `i`-th and `j`-th calls with
`i < j < 2 ^ 32` receive sequence numbers in strictly increasing order,
whatever data, nonces and timestamps the calls carry and whether or not they
succeed. -/
theorem send_sequences_strictly_increasing_until_wrap
    (sharedKey : List Nat) (inputs : Nat → List Nat × List Nat × Nat)
    (i j : Nat) (hij : i < j) (hj : j < 2 ^ 32) :
    assignedSeq sharedKey inputs i < assignedSeq sharedKey inputs j := by
  unfold assignedSeq
  rw [sendTrace_seq, sendTrace_seq, Nat.mod_eq_of_lt (lt_trans hij hj),
    Nat.mod_eq_of_lt hj]
  exact hij

/-- Witness for C5 at a concrete instance: the first two `send()` calls of a
fresh sender get increasing sequence numbers. -/
theorem send_sequences_strictly_increasing_until_wrap_witness :
    assignedSeq [] (fun _ => ([], [], 0)) 0 < assignedSeq [] (fun _ => ([], [], 0)) 1 :=
  send_sequences_strictly_increasing_until_wrap [] (fun _ => ([], [], 0)) 0 1
    (by norm_num) (by norm_num)

/-- C6: when encryption fails during `send()`, the call returns `false` to the
caller and the outstanding-packet ledger is unchanged — no entry for the failed
message is inserted, so the retransmit loop (which reads only the ledger) can
never resend it. -/
theorem failed_send_reports_failure_and_leaves_ledger_unchanged
    (sharedKey : List Nat) (st : SenderState) (data nonce : List Nat) (timestamp : Nat)
    (henc : SecureUdp.aes_gcm_encrypt sharedKey nonce data = none) :
    (SecureUdpSender.send sharedKey st data nonce timestamp).1 = false ∧
      ((SecureUdpSender.send sharedKey st data nonce timestamp).2).unackedPackets =
        st.unackedPackets := by
  unfold SecureUdpSender.send
  rw [henc]
  exact ⟨rfl, rfl⟩

/-- Witness for C6 at a concrete instance: a send whose encryption fails
(empty key, rejected by the key-length check) returns `false` and leaves the
ledger empty. -/
theorem failed_send_reports_failure_and_leaves_ledger_unchanged_witness :
    (SecureUdpSender.send [] initialSenderState [1] [2] 5).1 = false ∧
      ((SecureUdpSender.send [] initialSenderState [1] [2] 5).2).unackedPackets =
        initialSenderState.unackedPackets :=
  failed_send_reports_failure_and_leaves_ledger_unchanged [] initialSenderState [1] [2] 5
    (by decide)

/-- C7: while the sender runs, no operation removes a ledger entry — a key
present in `unackedPackets_` is still present after any `send()`, any
retransmit-loop iteration and even after `stop()` (which only clears the
running flag; entries die with the object) — and every loop iteration of a
running sender presents the entire ledger for retransmission. -/
theorem ledger_entries_never_removed_and_all_resent
    (sharedKey : List Nat) (st : SenderState) (op : SenderOp) (k : Nat)
    (hk : k ∈ st.unackedPackets.map Prod.fst) :
    k ∈ (senderStep sharedKey st op).unackedPackets.map Prod.fst ∧
      (st.running = true → SecureUdpSender.retransmitSends st = st.unackedPackets) := by
  constructor
  · cases op with
    | sendMsg d n t =>
        show k ∈ ((SecureUdpSender.send sharedKey st d n t).2).unackedPackets.map Prod.fst
        unfold SecureUdpSender.send
        cases SecureUdp.aes_gcm_encrypt sharedKey n d with
        | none => exact hk
        | some ct => exact ledgerInsert_keys_mono _ _ _ _ hk
    | retransmitIter => exact hk
    | stopCall =>
        show k ∈ (SecureUdpSender.stop st).unackedPackets.map Prod.fst
        unfold SecureUdpSender.stop
        split <;> exact hk
  · intro hrun
    unfold SecureUdpSender.retransmitSends
    rw [hrun]
    rfl

/-- Witness for C7 at a concrete instance: the entry with key 0 survives a
retransmit-loop iteration, which resends exactly the whole ledger. -/
theorem ledger_entries_never_removed_and_all_resent_witness :
    0 ∈ (senderStep [] { seq := 1, unackedPackets := [(0, [5])], running := true }
        SenderOp.retransmitIter).unackedPackets.map Prod.fst ∧
      (({ seq := 1, unackedPackets := [(0, [5])], running := true } : SenderState).running = true →
        SecureUdpSender.retransmitSends
            { seq := 1, unackedPackets := [(0, [5])], running := true } =
          ({ seq := 1, unackedPackets := [(0, [5])], running := true } : SenderState).unackedPackets) :=
  ledger_entries_never_removed_and_all_resent []
    { seq := 1, unackedPackets := [(0, [5])], running := true } SenderOp.retransmitIter 0
    (by decide)

/-- C9: every `send()` call advances the sequence counter by exactly one, even
when encryption fails (the `fetch_add` happens before encryption); hence after
a successful send, a failed send and a further successful send, the last call
is assigned sequence `st0.seq + 2 (mod 2 ^ 32)` — the failed call consumed
`st0.seq + 1`, so the two successful packets do not carry contiguous sequence
numbers. -/
theorem sequence_consumed_by_failed_send
    (sharedKey : List Nat) (st0 st1 st2 st3 : SenderState)
    (d0 n0 d1 n1 d2 n2 : List Nat) (t0 t1 t2 : Nat)
    (h0 : SecureUdpSender.send sharedKey st0 d0 n0 t0 = (true, st1))
    (h1 : SecureUdpSender.send sharedKey st1 d1 n1 t1 = (false, st2))
    (_h2 : SecureUdpSender.send sharedKey st2 d2 n2 t2 = (true, st3)) :
    st1.seq = (st0.seq + 1) % 2 ^ 32 ∧
      st2.seq = (st1.seq + 1) % 2 ^ 32 ∧
      st2.seq = (st0.seq + 2) % 2 ^ 32 ∧
      st2.seq ≠ (st0.seq + 1) % 2 ^ 32 := by
  have hs1 : st1.seq = (st0.seq + 1) % 2 ^ 32 := by
    have h := congrArg (fun p => p.2.seq) h0
    simpa [send_seq] using h.symm
  have hs2 : st2.seq = (st1.seq + 1) % 2 ^ 32 := by
    have h := congrArg (fun p => p.2.seq) h1
    simpa [send_seq] using h.symm
  have hpow : (2 : Nat) ^ 32 = 4294967296 := by norm_num
  refine ⟨hs1, hs2, ?_, ?_⟩
  · rw [hs2, hs1, hpow]
    omega
  · rw [hs2, hs1, hpow]
    omega

set_option maxRecDepth 16384

/-- Witness for C9 at a concrete instance: a success (32-byte random draw
accepted by the wrapper's length checks), then a failure (12-byte draw,
rejected), then a success; the counter advances by one on each call and the
second success is assigned a non-contiguous sequence number. -/
theorem sequence_consumed_by_failed_send_witness :
    ((SecureUdpSender.send (List.replicate 32 0) initialSenderState [] (List.replicate 32 1) 0).2).seq =
        (initialSenderState.seq + 1) % 2 ^ 32 ∧
      ((SecureUdpSender.send (List.replicate 32 0)
            (SecureUdpSender.send (List.replicate 32 0) initialSenderState []
              (List.replicate 32 1) 0).2 [] (List.replicate 12 0) 0).2).seq =
        (((SecureUdpSender.send (List.replicate 32 0) initialSenderState []
              (List.replicate 32 1) 0).2).seq + 1) % 2 ^ 32 ∧
      ((SecureUdpSender.send (List.replicate 32 0)
            (SecureUdpSender.send (List.replicate 32 0) initialSenderState []
              (List.replicate 32 1) 0).2 [] (List.replicate 12 0) 0).2).seq =
        (initialSenderState.seq + 2) % 2 ^ 32 ∧
      ((SecureUdpSender.send (List.replicate 32 0)
            (SecureUdpSender.send (List.replicate 32 0) initialSenderState []
              (List.replicate 32 1) 0).2 [] (List.replicate 12 0) 0).2).seq ≠
        (initialSenderState.seq + 1) % 2 ^ 32 :=
  sequence_consumed_by_failed_send (List.replicate 32 0) initialSenderState
    (SecureUdpSender.send (List.replicate 32 0) initialSenderState [] (List.replicate 32 1) 0).2
    (SecureUdpSender.send (List.replicate 32 0)
      (SecureUdpSender.send (List.replicate 32 0) initialSenderState []
        (List.replicate 32 1) 0).2 [] (List.replicate 12 0) 0).2
    (SecureUdpSender.send (List.replicate 32 0)
      (SecureUdpSender.send (List.replicate 32 0)
        (SecureUdpSender.send (List.replicate 32 0) initialSenderState []
          (List.replicate 32 1) 0).2 [] (List.replicate 12 0) 0).2 [] (List.replicate 32 2) 0).2
    [] (List.replicate 32 1) [] (List.replicate 12 0) [] (List.replicate 32 2) 0 0 0
    (by decide) (by decide) (by decide)

/-- A running sender with one outstanding packet (sequence 0), used to exercise
the retransmit loop's locking behavior. -/
def lockDemoState : SenderState :=
  { seq := 1, unackedPackets := [(0, [42])], running := true }

/-- Counterexample to C8: in one iteration of `sendThreadFunc` on a running
sender with an outstanding packet, the `sendto` network call is performed while
the ledger mutex is held — the set of sends executed under the lock is not
empty, contradicting the claim that the loop releases the lock before any
network I/O. -/
theorem retransmit_loop_sends_while_locked_counterexample :
    ¬ sendsUnderLock false (sendThreadIterEvents lockDemoState) = [] := by decide

/-- C8 (amended): the retransmit loop performs all of its network sends while
holding the ledger mutex — every ledger entry's `sendto` happens under the
lock, which is released only after the whole iteration (`lock.unlock()` follows
the `for` loop), just before the 100 ms sleep. -/
theorem retransmit_loop_sends_all_entries_while_locked
    (st : SenderState) (hrun : st.running = true) :
    sendsUnderLock false (sendThreadIterEvents st) =
      (SecureUdpSender.retransmitSends st).map Prod.fst := by
  have hrs : SecureUdpSender.retransmitSends st = st.unackedPackets := by
    simp [SecureUdpSender.retransmitSends, hrun]
  have hev : sendThreadIterEvents st =
      [SendEvent.lockAcquire] ++
        (if st.unackedPackets.isEmpty then [SendEvent.cvWait] else []) ++
        (st.unackedPackets.map (fun p => SendEvent.sendTo p.1) ++
          [SendEvent.lockRelease, SendEvent.sleepInterval]) := by
    simp [sendThreadIterEvents, hrun]
  rw [hrs, hev]
  by_cases he : st.unackedPackets.isEmpty
  · have hnil : st.unackedPackets = [] := by
      cases h : st.unackedPackets with
      | nil => rfl
      | cons a l => rw [h] at he; exact absurd he (by simp)
    simp [hnil, sendsUnderLock]
  · rw [if_neg he]
    have hstep : sendsUnderLock false
        ([SendEvent.lockAcquire] ++ [] ++
          (st.unackedPackets.map (fun p => SendEvent.sendTo p.1) ++
            [SendEvent.lockRelease, SendEvent.sleepInterval])) =
        sendsUnderLock true
          (st.unackedPackets.map (fun p => SendEvent.sendTo p.1) ++
            [SendEvent.lockRelease, SendEvent.sleepInterval]) := rfl
    rw [hstep, sendsUnderLock_sendTo_append]
    simp [sendsUnderLock]

/-- Witness for the amended C8 at a concrete instance: the single outstanding
packet is sent under the lock. -/
theorem retransmit_loop_sends_all_entries_while_locked_witness :
    sendsUnderLock false (sendThreadIterEvents lockDemoState) =
      (SecureUdpSender.retransmitSends lockDemoState).map Prod.fst :=
  retransmit_loop_sends_all_entries_while_locked lockDemoState (by decide)

/-- Shared key, wire nonce and payload for a concrete well-formed wire frame
whose ciphertext and tag are genuinely produced by the modelled AEAD primitive
for the 12-byte wire nonce (payload is the bytes of "ping"). -/
def replayKey : List Nat := List.replicate 32 5

def replayNonce : List Nat := List.range 12

def replayPayload : List Nat := [112, 105, 110, 103]

/-- A well-formed 44-byte wire frame carrying `replayPayload`. -/
def replayPacket : List Nat :=
  encodePacket 1 100 replayNonce
    (aeadEncrypt replayKey replayNonce [] replayPayload).1
    (aeadEncrypt replayKey replayNonce [] replayPayload).2

/-- C2 (code bug): the receiver keeps no replay state, so a datagram delivered
twice is processed twice, identically — the deliveries for `[d, d]` are always
the deliveries for `[d]` twice over, so the callback can never fire exactly
once for a duplicated delivery; and for the concrete well-formed frame
`replayPacket` the callback in fact never fires at all, because the 12-byte
wire nonce is rejected by the decrypt wrapper's length check (which compares
against the 32-byte KEYBYTES constant). -/
theorem receiver_has_no_replay_defense :
    (∀ sharedKey d : List Nat,
        SecureUdpReceiver.deliveries sharedKey [d, d] =
          SecureUdpReceiver.deliveries sharedKey [d] ++
            SecureUdpReceiver.deliveries sharedKey [d]) ∧
      SecureUdpReceiver.deliveries replayKey [replayPacket, replayPacket] = [] := by
  constructor
  · intro sharedKey d
    cases h : SecureUdpReceiver.processDatagram sharedKey d <;>
      simp [SecureUdpReceiver.deliveries, List.filterMap, h]
  · decide

/-- C3 (code bug): for a 32-byte key and the spec's 12-byte nonce, the
libsodium-backed `aes_gcm_encrypt` fails for every plaintext: the wrapper
compares the nonce length against `crypto_aead_aes256gcm_KEYBYTES` (32) instead
of `crypto_aead_aes256gcm_NPUBBYTES` (12), so the well-formed input is
rejected before the cipher is ever invoked. -/
theorem encrypt_rejects_every_spec_sized_nonce :
    (List.replicate 32 0).length = crypto_aead_aes256gcm_KEYBYTES ∧
      (List.replicate 12 0).length = crypto_aead_aes256gcm_NPUBBYTES ∧
      ∀ plaintext : List Nat,
        SecureUdp.aes_gcm_encrypt (List.replicate 32 0) (List.replicate 12 0) plaintext =
          none := by
  refine ⟨rfl, rfl, fun plaintext => ?_⟩
  unfold SecureUdp.aes_gcm_encrypt
  simp [crypto_aead_aes256gcm_KEYBYTES]

/-- Concrete codec fields for the C4 round-trip evaluation. -/
def codecNonce : List Nat := List.range 12

def codecCipher : List Nat := [1, 2, 3]

def codecTag : List Nat := List.range 16

/-- C4 (code bug): the packet codec half of the round-trip holds — decoding an
encoded frame reproduces the exact sequence, timestamp, nonce, ciphertext and
tag — but the AEAD half cannot even start: `encrypt(K, nonce, P)` with a valid
32-byte key and 12-byte nonce returns failure (nonce length compared against
the 32-byte KEYBYTES constant), so there is no ciphertext to decrypt. -/
theorem codec_roundtrips_but_encrypt_rejects_nonce :
    parsePacket (encodePacket 7 99 codecNonce codecCipher codecTag) =
        ⟨7, 99, codecNonce, codecCipher, codecTag⟩ ∧
      SecureUdp.aes_gcm_encrypt (List.replicate 32 0) (List.replicate 12 0) [104, 105] =
        none :=
  ⟨by decide, by decide⟩

/-- Key, plaintext and encryption output for the C1 header-tampering scenario,
using the OpenSSL-backed codec (whose encrypt succeeds unconditionally). -/
def tamperKey : List Nat := List.replicate 32 7

def tamperPlain : List Nat := [104, 105]

/-- Output of the OpenSSL-backed encrypt: generated nonce, ciphertext, tag. -/
def tamperEnc : List Nat × List Nat × List Nat :=
  SecureUdpExample.aes_gcm_encrypt tamperKey tamperPlain (List.range 12)

/-- The frame as the sender emits it (sequence 1, timestamp 1000). -/
def tamperPacket : List Nat :=
  encodePacket 1 1000 tamperEnc.1 tamperEnc.2.1 tamperEnc.2.2

/-- The same frame with its sequence and timestamp header fields modified
(sequence 2, timestamp 2000); nonce, ciphertext and tag untouched. -/
def tamperedPacket : List Nat :=
  encodePacket 2 2000 tamperEnc.1 tamperEnc.2.1 tamperEnc.2.2

/-- Counterexample to C1: modifying the sequence and timestamp header fields of
a sent packet does NOT make decryption fail — the tampered frame parses to the
same nonce, ciphertext and tag, and decryption still succeeds, returning the
original plaintext. The header fields are not bound to the ciphertext by the
AEAD tag. -/
theorem header_modification_not_detected_counterexample :
    tamperedPacket ≠ tamperPacket ∧
      SecureUdpExample.aes_gcm_decrypt tamperKey (parsePacket tamperedPacket).nonce
          (parsePacket tamperedPacket).ciphertext (parsePacket tamperedPacket).tag =
        some tamperPlain :=
  ⟨by decide, by decide⟩

/-- C1 (amended): the AEAD operations do not bind the packet header — the
sequence and timestamp fields are never passed to the cipher (the associated
data supplied by both wrappers is empty), so the decryption outcome of a frame
is entirely independent of the header values it was framed with: frames built
from the same nonce, ciphertext and tag but arbitrary different sequence and
timestamp values decrypt to the same result. -/
theorem aead_decryption_independent_of_header_fields
    (sharedKey : List Nat) (s t sm tm : Nat) (nonce c g : List Nat) :
    SecureUdpExample.aes_gcm_decrypt sharedKey
        (parsePacket (encodePacket s t nonce c g)).nonce
        (parsePacket (encodePacket s t nonce c g)).ciphertext
        (parsePacket (encodePacket s t nonce c g)).tag =
      SecureUdpExample.aes_gcm_decrypt sharedKey
        (parsePacket (encodePacket sm tm nonce c g)).nonce
        (parsePacket (encodePacket sm tm nonce c g)).ciphertext
        (parsePacket (encodePacket sm tm nonce c g)).tag := by
  simp only [parsePacket, encodePacket_drop_twelve, encodePacket_drop_twentyfour,
    encodePacket_length]

/-- C10: the receiver's per-datagram processing does not depend on the decoded
sequence and timestamp header bytes — two received datagrams of equal length,
well formed (at least 40 bytes) and identical from offset 12 onwards produce
the same outcome: the callback fires in one iff it fires in the other, with the
same plaintext. -/
theorem receiver_outcome_independent_of_header_bytes
    (sharedKey d1 d2 : List Nat) (hlen : d1.length = d2.length)
    (_hmin : 4 + 8 + 12 + 16 ≤ d1.length) (htail : d1.drop 12 = d2.drop 12) :
    SecureUdpReceiver.processDatagram sharedKey d1 =
      SecureUdpReceiver.processDatagram sharedKey d2 := by
  have h24 : d1.drop 24 = d2.drop 24 := by
    have h := congrArg (List.drop 12) htail
    rw [List.drop_drop, List.drop_drop] at h
    simpa using h
  simp only [SecureUdpReceiver.processDatagram, parsePacket]
  rw [hlen, htail, h24]

/-- Two well-formed 40-byte datagrams differing only in their first (sequence)
byte, for the C10 witness. -/
def headerDemoA : List Nat := List.replicate 40 0

def headerDemoB : List Nat := 9 :: List.replicate 39 0

/-- Witness for C10 at a concrete instance: the two datagrams differing only in
a header byte are processed to the same outcome. -/
theorem receiver_outcome_independent_of_header_bytes_witness :
    SecureUdpReceiver.processDatagram [] headerDemoA =
      SecureUdpReceiver.processDatagram [] headerDemoB :=
  receiver_outcome_independent_of_header_bytes [] headerDemoA headerDemoB
    (by decide) (by decide) (by decide)
